import Mathlib

/-!
Shallow embedding of the synchronization / local-cache controller in
`src/index.tsx` (the `CanvasRoot` component of the ExcaliChirpul board page).

Strings manipulated by the JavaScript code are modelled as `List Char`; the
JavaScript string primitives used by the source (`toLowerCase`, `trim`,
`slice(0, n)`, `includes`) are embedded below as functions on `List Char`
restricted to their ASCII behaviour, which is all the source relies on.
External browser built-ins (`fetch`, `decodeURIComponent`, timers, the
Excalidraw widget) are modelled as explicit parameters or event alphabets;
everything the repository itself computes is translated from the source.
-/

/-- JavaScript `String.prototype.toLowerCase`, ASCII fragment (the source only
ever compares ASCII labels and queries). -/
def jsToLower (s : List Char) : List Char :=
  s.map Char.toLower

/-- Whitespace recognised by JavaScript `String.prototype.trim`, restricted to
the ASCII whitespace characters. -/
def jsIsWs (c : Char) : Bool :=
  c = ' ' || c = '\t' || c = '\n' || c = '\r'

/-- JavaScript `String.prototype.trim`: drop leading and trailing whitespace. -/
def jsTrim (s : List Char) : List Char :=
  ((s.dropWhile jsIsWs).reverse.dropWhile jsIsWs).reverse

/-- JavaScript `String.prototype.slice(0, n)`: the first `n` characters. -/
def jsSlice (n : Nat) (s : List Char) : List Char :=
  s.take n

/-- Does `needle` occur as a contiguous substring of `hay`?  This is
JavaScript `String.prototype.includes` on the character-list model. -/
def jsIncludes (hay needle : List Char) : Bool :=
  if needle.isPrefixOf hay then true
  else
    match hay with
    | [] => false
    | _ :: rest => jsIncludes rest needle

/-- JavaScript `||` on nullable strings: `null` and the empty string are
falsy, anything else wins. -/
def jsOrStr (a b : Option (List Char)) : Option (List Char) :=
  match a with
  | some s => if s = [] then b else some s
  | none => b

/-!
Cookie reading (`getCookie`, src/index.tsx lines 22-31).

The source matches `document.cookie` against the regular expression
`(?:^|; )name=([^;]*)` (the name is metacharacter-escaped first, so it is
matched literally) and returns `decodeURIComponent` of the captured group,
or `null` when there is no match; any exception (including a `URIError`
from `decodeURIComponent`) is caught and turned into `null`.

`findCookieAux pat s b` scans `s` for the leftmost position that either is
the start of the string (`b = true` initially) or is preceded by the two
characters `"; "`, and at which `pat` (the cookie name followed by `=`)
begins; it returns the value characters up to the next `;`.
`decodeURIComponent` is a browser built-in, so it enters the model as an
oracle `decode : List Char → Option (List Char)` where `none` models a
thrown `URIError`.  `document.cookie` itself enters as
`jar : Option (List Char)` where `none` models the document being
unavailable or its cookie getter throwing.
-/

/-- Scan for the regular-expression match of `(?:^|; )pat([^;]*)`: `b` records
whether the current position is the string start or preceded by `"; "`. -/
def findCookieAux (pat : List Char) : List Char → Bool → Option (List Char)
  | s, b =>
    if b && pat.isPrefixOf s then
      some ((s.drop pat.length).takeWhile (fun c => c ≠ ';'))
    else
      match s with
      | [] => none
      | ';' :: ' ' :: rest => findCookieAux pat rest true
      | _ :: rest => findCookieAux pat rest false

/-- Embedding of `getCookie` (src/index.tsx lines 22-31). -/
def getCookie (decode : List Char → Option (List Char))
    (jar : Option (List Char)) (name : List Char) : Option (List Char) :=
  match jar with
  | none => none
  | some s =>
    match findCookieAux (name ++ ['=']) s true with
    | none => none
    | some raw => decode raw

/-- The `csrfToken || csrf-token || csrf_token` chain followed by the
truthiness test `if (csrfToken)` that decides whether the `X-CSRF-Token`
header is attached (src/index.tsx lines 178-188). -/
def attachedCsrf (decode : List Char → Option (List Char))
    (jar : Option (List Char)) : Option (List Char) :=
  match
    jsOrStr
      (jsOrStr (getCookie decode jar "csrfToken".toList)
        (getCookie decode jar "csrf-token".toList))
      (getCookie decode jar "csrf_token".toList)
  with
  | some s => if s = [] then none else some s
  | none => none

/-!
The autosave pipeline (`handleChange`, src/index.tsx lines 162-221).

A change notification carries `(elements, appState, files)`; the three values
are opaque to the controller (they are forwarded verbatim into the request
body), so they are modelled as opaque tokens.
-/

/-- The `(elements, appState, files)` triple of a change notification; also
the shape of the `Document` held in `initialData`.  The three components are
opaque to the controller. -/
structure Payload where
  elements : Nat
  appState : Nat
  files : Nat
deriving DecidableEq

/-- One pending debounced write: the `window.setTimeout` ticket together with
the change arguments its closure captured. -/
structure SaveTicket where
  delayMs : Nat
  payload : Payload
deriving DecidableEq

/-- One issued write request: `POST {apiBase}/api/projects/{pid}/boards/{bid}`
with the recorded headers and the JSON body `{elements, appState, files}`. -/
structure SaveRequest where
  projectId : List Char
  boardId : List Char
  headers : List (List Char × List Char)
  body : Payload
deriving DecidableEq

/-- Mutable state of the autosave pipeline: the `saveTimer` ref (at most one
scheduled, not-yet-fired ticket) and the log of write requests issued. -/
structure AutosaveState where
  pending : Option SaveTicket
  writes : List SaveRequest
deriving DecidableEq

/-- Embedding of `handleChange` (src/index.tsx lines 162-221) up to the point
the timeout is scheduled: in view-only mode it returns immediately; otherwise
it clears any previously scheduled timer and schedules a fresh 1000 ms ticket
capturing the current change arguments. -/
def handleChange (viewModeEnabled : Bool) (st : AutosaveState) (p : Payload) :
    AutosaveState :=
  if viewModeEnabled then st
  else { st with pending := some { delayMs := 1000, payload := p } }

/-- The headers object built inside the timeout callback: `Content-Type`
always, plus `X-CSRF-Token` when the cookie chain produced a truthy token
(src/index.tsx lines 175-188). -/
def buildSaveHeaders (decode : List Char → Option (List Char))
    (jar : Option (List Char)) : List (List Char × List Char) :=
  match attachedCsrf decode jar with
  | some tok => [("Content-Type".toList, "application/json".toList),
                 ("X-CSRF-Token".toList, tok)]
  | none => [("Content-Type".toList, "application/json".toList)]

/-- Embedding of the timeout callback firing (src/index.tsx lines 170-215):
the timer ref is cleared first; then, if no truthy project identifier is
bound (`if (!projectId) return`, where the empty string is falsy), nothing is
saved; otherwise one write request is issued with the captured payload. -/
def fireSaveTicket (projectId : Option (List Char)) (boardId : List Char)
    (decode : List Char → Option (List Char)) (jar : Option (List Char))
    (st : AutosaveState) : AutosaveState :=
  match st.pending with
  | none => st
  | some t =>
    let cleared : AutosaveState := { st with pending := none }
    match projectId with
    | none => cleared
    | some pid =>
      if pid = [] then cleared
      else
        { cleared with
          writes := cleared.writes ++
            [{ projectId := pid, boardId := boardId,
               headers := buildSaveHeaders decode jar, body := t.payload }] }

/-!
The scene-reconciliation effect (src/index.tsx lines 116-125) and its two
readiness facts.  `setExcalidrawReady(true)` and `excalidrawRef.current = api`
are both performed by the `excalidrawAPI` callback (lines 389-399), so they
are modelled as a single `excalidrawReady` flag.  The effect re-runs after
every update of its dependencies `(initialData, excalidrawReady)`; the
Excalidraw `initialData` prop is only read at mount, when `initialData` is
still `null` (the bootstrap fetch starts after mount), so the effect is the
only scene-load path.  `canvasThrows` models `updateScene` throwing; the
surrounding catch swallows the failure.
-/

/-- State observed by the scene-reconciliation effect, plus the log of
`updateScene` invocation attempts and the scene the canvas actually holds. -/
structure SceneState where
  initialData : Option Payload
  excalidrawReady : Bool
  attempts : List Payload
  canvasScene : Option Payload
deriving DecidableEq

/-- Embedding of the reconciliation effect body (src/index.tsx lines 116-125):
bail out unless a Document is loaded and the canvas instance is ready,
otherwise call `updateScene(initialData)` inside a try/catch. -/
def runSceneEffect (canvasThrows : Bool) (st : SceneState) : SceneState :=
  match st.initialData with
  | none => st
  | some d =>
    if st.excalidrawReady then
      let st1 := { st with attempts := st.attempts ++ [d] }
      if canvasThrows then st1 else { st1 with canvasScene := some d }
    else st

/-- The two readiness events of a run: the bootstrap fetch delivering a
Document, and the canvas reporting its instance handle. -/
inductive BoardEvent where
  | docLoaded (d : Payload)
  | canvasReady
deriving DecidableEq

/-- Processing one event: apply the state update it performs, then re-run the
effect (each event changes one of the effect's dependencies). -/
def sceneStep (canvasThrows : Bool) (st : SceneState) (ev : BoardEvent) :
    SceneState :=
  match ev with
  | .docLoaded d => runSceneEffect canvasThrows { st with initialData := some d }
  | .canvasReady =>
      runSceneEffect canvasThrows { st with excalidrawReady := true }

/-- Process a sequence of readiness events in order. -/
def runScene (canvasThrows : Bool) (evs : List BoardEvent) (st : SceneState) :
    SceneState :=
  evs.foldl (sceneStep canvasThrows) st

/-- The state at mount: no Document, canvas not ready, nothing pushed. -/
def initialSceneState : SceneState :=
  { initialData := none, excalidrawReady := false, attempts := [],
    canvasScene := none }

/-!
The bootstrap loader (src/index.tsx lines 80-112).

`fetch` enters the model as the outcome it produced: a rejection, or a
response with an `ok` flag and a decoded JSON body.  `res.json().catch(() =>
null)` maps a body-decode failure to `null`, i.e. to `none` here.  The body
shape consumed is `{data?, updatedAt?}`; `data` is kept when it is a truthy
object (`json?.data && typeof json.data === "object"`), and `updatedAt` is
kept when truthy (`if (json?.updatedAt)`), which for a string means
non-empty.
-/

/-- Decoded JSON body of the bootstrap read: an optional Document object and
an optional `updatedAt` string. -/
structure BootBody where
  data : Option Payload
  updatedAt : Option (List Char)
deriving DecidableEq

/-- Outcome of the bootstrap `fetch`: a network rejection, or a response with
its `ok` status and its decoded body (`none` = body-decode failure). -/
inductive FetchOutcome where
  | netError
  | resp (ok : Bool) (json : Option BootBody)
deriving DecidableEq

/-- The two state cells the bootstrap effect writes: `initialData` and
`lastUpdated`. -/
structure BootState where
  initialData : Option Payload
  lastUpdated : Option (List Char)
deriving DecidableEq

/-- State before the bootstrap effect runs. -/
def initialBootState : BootState :=
  { initialData := none, lastUpdated := none }

/-- Embedding of the bootstrap effect (src/index.tsx lines 80-112): on a
rejected fetch the catch swallows the error and nothing happens; on a non-OK
response nothing happens; on an OK response with a null (undecodable) body
nothing happens; otherwise `data` (when a truthy object) becomes the Document
and `updatedAt` (when truthy) becomes the last-saved timestamp.  No local
fallback read exists on any path. -/
def bootstrapStep (o : FetchOutcome) (st : BootState) : BootState :=
  match o with
  | .netError => st
  | .resp ok json =>
    if ok then
      match json with
      | none => st
      | some body =>
        let st1 :=
          match body.data with
          | some d => { st with initialData := some d }
          | none => st
        match body.updatedAt with
        | some u => if u = [] then st1 else { st1 with lastUpdated := some u }
        | none => st1
    else st

/-!
The asset-catalog cache: `normalizedLibraries` (src/index.tsx lines 223-247).
A raw library item is opaque except for the fields the controller reads: its
optional `id` and its `elements` array of sub-elements, of which only the
`type` and `text` fields are consulted.
-/

/-- A constituent sub-element of a library item, as far as the controller
reads it: its `type` tag and its `text` field (`some` iff
`typeof el.text === "string"`). -/
structure LibSubEl where
  type : List Char
  text : Option (List Char)
deriving DecidableEq

/-- The `elements` field of a raw library item: falsy (so `|| []` substitutes
the empty array), an actual array whose entries may themselves be falsy, or a
truthy non-array on which `.find` throws (caught by the surrounding try). -/
inductive ElementsField where
  | missing
  | arr (els : List (Option LibSubEl))
  | bad
deriving DecidableEq

/-- A raw library item, as far as the controller reads it. -/
structure RawLibItem where
  id : Option (List Char)
  elements : ElementsField
deriving DecidableEq

/-- One entry of the derived presentation view (src/index.tsx line 241). -/
structure NormEntry where
  id : List Char
  label : List Char
  haystack : List Char
  isStarred : Bool
deriving DecidableEq

/-- The predicate of the `.find` call (src/index.tsx lines 230-232):
`el && el.type === "text" && typeof el.text === "string" && el.text.trim()`. -/
def isTextElem (oel : Option LibSubEl) : Bool :=
  match oel with
  | none => false
  | some el =>
    el.type == "text".toList &&
      (match el.text with
       | some t => !(jsTrim t).isEmpty
       | none => false)

/-- The placeholder label `` `Item ${index + 1}` ``. -/
def itemPlaceholder (index : Nat) : List Char :=
  "Item ".toList ++ (toString (index + 1)).toList

/-- Embedding of the label derivation (src/index.tsx lines 228-238): the
default placeholder, overwritten by the first 60 characters of the first
textual non-blank sub-element's text when the scan finds one; a throwing scan
(`elements` a truthy non-array) is caught and leaves the placeholder. -/
def deriveLabel (index : Nat) (item : RawLibItem) : List Char :=
  match item.elements with
  | .bad => itemPlaceholder index
  | .missing => itemPlaceholder index
  | .arr els =>
    match els.find? isTextElem with
    | some (some el) =>
      match el.text with
      | some t => if t = [] then itemPlaceholder index else jsSlice 60 t
      | none => itemPlaceholder index
    | _ => itemPlaceholder index

/-- Embedding of the per-item normalization (src/index.tsx lines 225-242):
`id` is `String(anyItem.id ?? index)`, the label is derived, the search
haystack is the lowercased label, and the starred flag is membership of the
id in the persisted starred-id list. -/
def normalizeItem (starred : List (List Char)) (index : Nat)
    (item : RawLibItem) : NormEntry :=
  let id :=
    match item.id with
    | some s => s
    | none => (toString index).toList
  let label := deriveLabel index item
  { id := id, label := label, haystack := jsToLower label,
    isStarred := starred.contains id }

/-- The mapped entry list, with each item normalized at its catalog index. -/
def normEntries (starred : List (List Char)) (items : List RawLibItem) :
    List NormEntry :=
  items.enum.map (fun pr => normalizeItem starred pr.1 pr.2)

/-- Embedding of `filtered.sort((a, b) => Number(b.isStarred) -
Number(a.isStarred))` (src/index.tsx line 245).  ECMAScript
`Array.prototype.sort` is a stable sort, and under this two-valued comparator
a stable sort is exactly the stable partition that places starred entries
first, each side in its original order. -/
def sortStarredFirst (l : List NormEntry) : List NormEntry :=
  l.filter (fun e => e.isStarred) ++ l.filter (fun e => !e.isStarred)

/-- Embedding of `normalizedLibraries` (src/index.tsx lines 223-247): empty
when no catalog is loaded; otherwise normalize each item, filter by the
trimmed lowercased query when that is non-empty, and sort starred-first. -/
def normalizedLibraries (libraryItems : Option (List RawLibItem))
    (starred : List (List Char)) (libraryQuery : List Char) : List NormEntry :=
  match libraryItems with
  | none => []
  | some items =>
    let entries := normEntries starred items
    let q := jsToLower (jsTrim libraryQuery)
    let filtered :=
      if q = [] then entries else entries.filter (fun i => jsIncludes i.haystack q)
    sortStarredFirst filtered

/-!
The curation store: `toggleStar` (src/index.tsx lines 249-266).  Local
storage enters the model as the last successfully persisted starred-id list
(`none` = nothing written yet) together with a `persistOk` flag modelling
whether `localStorage.setItem` succeeds or throws (the throw is caught and
ignored).
-/

/-- In-memory starred-id list plus the last successfully persisted list. -/
structure CurationState where
  starred : List (List Char)
  stored : Option (List (List Char))
deriving DecidableEq

/-- Embedding of `toggleStar` (src/index.tsx lines 249-266): remove every
occurrence of `id` when present, append it when absent, then persist the
resulting list in the same turn; a persistence failure is swallowed and the
in-memory list is still returned. -/
def toggleStar (persistOk : Bool) (st : CurationState) (id : List Char) :
    CurationState :=
  let present := st.starred.contains id
  let next :=
    if present then st.starred.filter (fun x => x != id)
    else st.starred ++ [id]
  { starred := next, stored := if persistOk then some next else st.stored }

/-!
Specification-side definitions, written from the spec's words, for the
refinement claims that compare the spec's description with the code.
-/

/-- Modelled from the spec: the PresentationView as §3 words it — "entries
whose lowercase label contains the lowercase query substring, ordered
starred-first, otherwise stable on original catalog order" (a stable
partition by the starred flag). -/
def specPresentationView (entries : List NormEntry) (query : List Char) :
    List NormEntry :=
  let matched :=
    entries.filter (fun e => jsIncludes (jsToLower e.label) (jsToLower query))
  (matched.partition (fun e => e.isStarred)).1 ++
    (matched.partition (fun e => e.isStarred)).2

/-- Modelled from the spec: the first non-empty value among a priority-ordered
list of cookie-read results ("checked in that priority order, first non-empty
wins"). -/
def firstNonEmptyToken : List (Option (List Char)) → Option (List Char)
  | [] => none
  | none :: rest => firstNonEmptyToken rest
  | some s :: rest => if s = [] then firstNonEmptyToken rest else some s

/-- Modelled from the spec: the scan of §4.4 — the text of the first
sub-element "flagged as textual with non-blank content", skipping falsy
entries. -/
def specFirstTextual : List (Option LibSubEl) → Option (List Char)
  | [] => none
  | none :: rest => specFirstTextual rest
  | some el :: rest =>
    match el.text with
    | some t =>
      if el.type = "text".toList ∧ jsTrim t ≠ [] then some t
      else specFirstTextual rest
    | none => specFirstTextual rest

/-- The identity decoding oracle: `decodeURIComponent` on a value with no
percent-escapes. -/
def decodeId : List Char → Option (List Char) :=
  fun s => some s

/-- Folding any block of change notifications (view-only off) only replaces
the pending ticket: the result holds a fresh 1000 ms ticket for the last
notification and the write log is untouched. -/
theorem foldl_handleChange_eq (ps : List Payload) (pl : Payload)
    (st : AutosaveState) (h : ps.getLast? = some pl) :
    ps.foldl (handleChange false) st =
      { pending := some { delayMs := 1000, payload := pl },
        writes := st.writes } := by
  induction ps generalizing st with
  | nil => simp at h
  | cons p ps ih =>
    cases ps with
    | nil =>
      simp [List.getLast?] at h
      subst h
      rfl
    | cons q qs =>
      rw [List.getLast?_cons_cons] at h
      rw [List.foldl_cons]
      exact ih _ h

/-- C1: for every non-empty burst of change notifications inside the debounce
window (view-only off, a truthy project identifier bound), the state after the
burst holds exactly one scheduled 1000 ms ticket capturing the arguments of
the last notification; when that ticket fires, exactly one write request is
issued and its body is the last notification's payload; and each notification
replaces (cancels) whatever ticket was previously scheduled. -/
theorem autosave_debounce_last_write_wins
    (pid bid : List Char) (decode : List Char → Option (List Char))
    (jar : Option (List Char)) (st0 : AutosaveState) (ps : List Payload)
    (pl : Payload) (hpid : pid ≠ []) (hlast : ps.getLast? = some pl) :
    (ps.foldl (handleChange false) st0).pending =
      some { delayMs := 1000, payload := pl } ∧
    fireSaveTicket (some pid) bid decode jar
        (ps.foldl (handleChange false) st0) =
      { pending := none,
        writes := st0.writes ++
          [{ projectId := pid, boardId := bid,
             headers := buildSaveHeaders decode jar, body := pl }] } ∧
    (∀ (q : Payload) (st : AutosaveState),
      (handleChange false st q).pending =
        some { delayMs := 1000, payload := q }) := by
  have hfold := foldl_handleChange_eq ps pl st0 hlast
  refine ⟨by rw [hfold], ?_, fun q st => rfl⟩
  rw [hfold]
  simp [fireSaveTicket, hpid]

/-- Witness for C1: a two-notification burst from the empty state issues the
single write carrying the second notification's payload. -/
theorem autosave_debounce_last_write_wins_witness :
    ("p".toList ≠ ([] : List Char)) ∧
    (([⟨1, 1, 1⟩, ⟨2, 2, 2⟩] : List Payload).getLast? = some ⟨2, 2, 2⟩) ∧
    (([⟨1, 1, 1⟩, ⟨2, 2, 2⟩] : List Payload).foldl (handleChange false)
        { pending := none, writes := [] }).pending =
      some { delayMs := 1000, payload := ⟨2, 2, 2⟩ } ∧
    fireSaveTicket (some "p".toList) "b".toList decodeId none
        (([⟨1, 1, 1⟩, ⟨2, 2, 2⟩] : List Payload).foldl (handleChange false)
          { pending := none, writes := [] }) =
      { pending := none,
        writes := [{ projectId := "p".toList, boardId := "b".toList,
                     headers := buildSaveHeaders decodeId none,
                     body := ⟨2, 2, 2⟩ }] } := by
  have h := autosave_debounce_last_write_wins "p".toList "b".toList decodeId
    none { pending := none, writes := [] } [⟨1, 1, 1⟩, ⟨2, 2, 2⟩] ⟨2, 2, 2⟩
    (by decide) (by decide)
  exact ⟨by decide, by decide, h.1, by simpa using h.2.1⟩

/-- C2: whichever of Document-loaded and canvas-ready happens first, the
scene-load command is attempted exactly once, with that Document; when the
canvas throws on the command the failure is swallowed (the canvas keeps its
previous scene) and no second attempt is made. -/
theorem scene_reconciler_exactly_once (d : Payload) (thr : Bool) :
    (runScene thr [BoardEvent.docLoaded d, BoardEvent.canvasReady]
        initialSceneState).attempts = [d] ∧
    (runScene thr [BoardEvent.canvasReady, BoardEvent.docLoaded d]
        initialSceneState).attempts = [d] ∧
    (runScene thr [BoardEvent.docLoaded d, BoardEvent.canvasReady]
        initialSceneState).canvasScene = (if thr then none else some d) ∧
    (runScene thr [BoardEvent.canvasReady, BoardEvent.docLoaded d]
        initialSceneState).canvasScene = (if thr then none else some d) := by
  cases thr <;> exact ⟨rfl, rfl, rfl, rfl⟩

/-- C5: on any failing bootstrap read — network rejection, non-OK status, or
body-decode failure — the loader changes nothing: the Document stays unset,
no other state is touched (no local fallback exists), and since no Document
ever arrives, the reconciler never attempts the scene-load command and the
canvas stays empty. -/
theorem bootstrap_failure_leaves_board_empty (o : FetchOutcome) (thr : Bool)
    (hfail : o = FetchOutcome.netError ∨
      (∃ j, o = FetchOutcome.resp false j) ∨ o = FetchOutcome.resp true none) :
    bootstrapStep o initialBootState = initialBootState ∧
    (bootstrapStep o initialBootState).initialData = none ∧
    (runScene thr [BoardEvent.canvasReady] initialSceneState).attempts = [] ∧
    (runScene thr [BoardEvent.canvasReady] initialSceneState).canvasScene =
      none := by
  have hstep : bootstrapStep o initialBootState = initialBootState := by
    rcases hfail with h | ⟨j, h⟩ | h <;> subst h <;> rfl
  exact ⟨hstep, by rw [hstep]; rfl, rfl, rfl⟩

/-- Witness for C5: a network rejection leaves everything unchanged. -/
theorem bootstrap_failure_leaves_board_empty_witness :
    bootstrapStep FetchOutcome.netError initialBootState = initialBootState ∧
    (bootstrapStep FetchOutcome.netError initialBootState).initialData =
      none ∧
    (runScene false [BoardEvent.canvasReady] initialSceneState).attempts =
      [] ∧
    (runScene false [BoardEvent.canvasReady] initialSceneState).canvasScene =
      none :=
  bootstrap_failure_leaves_board_empty FetchOutcome.netError false (Or.inl rfl)

/-- Counterexample to C8 as stated: an OK response whose body contains the
`updatedAt` field with the empty-string value does NOT make that value the
last-saved timestamp — `if (json?.updatedAt)` is a truthiness test, so the
empty string is skipped and `lastUpdated` stays unset. -/
theorem bootstrap_empty_updated_at_counterexample :
    (BootBody.mk none (some []) : BootBody).updatedAt = some [] ∧
    (bootstrapStep
        (FetchOutcome.resp true (some (BootBody.mk none (some []))))
        initialBootState).lastUpdated = none ∧
    (bootstrapStep
        (FetchOutcome.resp true (some (BootBody.mk none (some []))))
        initialBootState).lastUpdated ≠ some [] :=
  ⟨rfl, rfl, by decide⟩

/-- C8 (amended): for every OK bootstrap response whose decoded body carries a
truthy — i.e. non-empty — `updatedAt` value, that value becomes the
last-saved timestamp, regardless of whether the body also contained a `data`
object. -/
theorem bootstrap_truthy_updated_at_sets_timestamp (body : BootBody)
    (u : List Char) (st : BootState) (hu : body.updatedAt = some u)
    (hne : u ≠ []) :
    (bootstrapStep (FetchOutcome.resp true (some body)) st).lastUpdated =
      some u := by
  cases body with
  | mk data updatedAt =>
    simp only at hu
    subst hu
    cases data <;> simp [bootstrapStep, hne]

/-- Witness for C8 (amended): a body with no `data` but `updatedAt = "t"`
sets the timestamp. -/
theorem bootstrap_truthy_updated_at_sets_timestamp_witness :
    ((BootBody.mk none (some "t".toList)).updatedAt = some "t".toList) ∧
    ("t".toList ≠ ([] : List Char)) ∧
    (bootstrapStep
        (FetchOutcome.resp true (some (BootBody.mk none (some "t".toList))))
        initialBootState).lastUpdated = some "t".toList :=
  ⟨rfl, by decide,
    bootstrap_truthy_updated_at_sets_timestamp
      (BootBody.mk none (some "t".toList)) "t".toList initialBootState rfl
      (by decide)⟩

/-- C3: while view-only mode is active, the autosave entry point is a complete
no-op — the state is returned unchanged, so no ticket is scheduled, no pending
ticket is cancelled, and no write request is issued. -/
theorem view_only_change_is_noop (p : Payload) (st : AutosaveState) :
    handleChange true st p = st ∧
    (handleChange true st p).pending = st.pending ∧
    (handleChange true st p).writes = st.writes :=
  ⟨rfl, rfl, rfl⟩

/-- The JavaScript `a || b || c` chain followed by the truthiness test picks
exactly the first non-empty value in priority order. -/
theorem truthy_or_chain (a b c : Option (List Char)) :
    (match jsOrStr (jsOrStr a b) c with
     | some s => if s = [] then none else some s
     | none => none) = firstNonEmptyToken [a, b, c] := by
  cases a with
  | none =>
    cases b with
    | none =>
      cases c with
      | none => rfl
      | some s =>
        by_cases h : s = [] <;> simp [jsOrStr, firstNonEmptyToken, h]
    | some s =>
      by_cases h : s = [] <;>
        cases c <;> simp [jsOrStr, firstNonEmptyToken, h] <;>
          try split_ifs <;> simp_all [firstNonEmptyToken]
  | some s =>
    by_cases h : s = [] <;>
      cases b <;> cases c <;> simp [jsOrStr, firstNonEmptyToken, h] <;>
        try split_ifs <;> simp_all [firstNonEmptyToken]

/-- C6: when a ticket fires, the token attached as `X-CSRF-Token` is exactly
the first non-empty value read from the cookies `csrfToken`, `csrf-token`,
`csrf_token` in that priority order; when it exists it is placed in the
headers, and when cookie reading fails for any reason (no readable cookie
jar, or no truthy token) the write is still issued, just without the
header. -/
theorem csrf_priority_and_best_effort
    (decode : List Char → Option (List Char)) (jar : Option (List Char)) :
    attachedCsrf decode jar =
      firstNonEmptyToken
        [getCookie decode jar "csrfToken".toList,
         getCookie decode jar "csrf-token".toList,
         getCookie decode jar "csrf_token".toList] ∧
    (∀ tok, attachedCsrf decode jar = some tok →
      buildSaveHeaders decode jar =
        [("Content-Type".toList, "application/json".toList),
         ("X-CSRF-Token".toList, tok)]) ∧
    (attachedCsrf decode jar = none →
      buildSaveHeaders decode jar =
        [("Content-Type".toList, "application/json".toList)]) ∧
    buildSaveHeaders decode none =
      [("Content-Type".toList, "application/json".toList)] ∧
    (∀ (pid bid : List Char) (st : AutosaveState) (t : SaveTicket),
      pid ≠ [] → st.pending = some t →
      fireSaveTicket (some pid) bid decode jar st =
        { pending := none,
          writes := st.writes ++
            [{ projectId := pid, boardId := bid,
               headers := buildSaveHeaders decode jar,
               body := t.payload }] }) := by
  refine ⟨truthy_or_chain _ _ _, ?_, ?_, rfl, ?_⟩
  · intro tok h
    simp [buildSaveHeaders, h]
  · intro h
    simp [buildSaveHeaders, h]
  · intro pid bid st t hpid hp
    simp [fireSaveTicket, hp, hpid]

/-- Witness for C6: with cookie jar `csrfToken=; csrf-token=abc` the empty
first cookie is skipped and `abc` wins; with no readable jar the write is
still issued with only the `Content-Type` header. -/
theorem csrf_priority_and_best_effort_witness :
    attachedCsrf decodeId (some "csrfToken=; csrf-token=abc".toList) =
      some "abc".toList ∧
    buildSaveHeaders decodeId none =
      [("Content-Type".toList, "application/json".toList)] ∧
    fireSaveTicket (some "p".toList) "b".toList decodeId none
        { pending := some { delayMs := 1000, payload := ⟨1, 2, 3⟩ },
          writes := [] } =
      { pending := none,
        writes := [{ projectId := "p".toList, boardId := "b".toList,
                     headers := buildSaveHeaders decodeId none,
                     body := ⟨1, 2, 3⟩ }] } := by
  have h := csrf_priority_and_best_effort decodeId
    (some "csrfToken=; csrf-token=abc".toList)
  have h2 := csrf_priority_and_best_effort decodeId none
  refine ⟨?_, h2.2.2.2.1, ?_⟩
  · rw [h.1]
    decide
  · have h3 := h2.2.2.2.2 "p".toList "b".toList
      { pending := some { delayMs := 1000, payload := ⟨1, 2, 3⟩ },
        writes := [] }
      { delayMs := 1000, payload := ⟨1, 2, 3⟩ } (by decide) rfl
    simpa using h3

/-- Bridge between `List.contains` (used by the source via `includes`) and
list membership. -/
theorem contains_iff_mem (l : List (List Char)) (a : List Char) :
    l.contains a = true ↔ a ∈ l :=
  List.elem_iff

/-- Negative form of the bridge. -/
theorem contains_false_iff_not_mem (l : List (List Char)) (a : List Char) :
    l.contains a = false ↔ ¬ a ∈ l := by
  rw [← contains_iff_mem]
  cases l.contains a <;> simp

/-- C7: toggling an id flips its membership; the full resulting list is
persisted in the same turn when persistence succeeds; toggling twice restores
the original membership; and a persistence failure is swallowed — the
in-memory result is the same as on success and the previously persisted
record is left as it was. -/
theorem toggle_star_flip_and_roundtrip (id : List Char) (st : CurationState)
    (ok1 ok2 : Bool) :
    ((id ∈ (toggleStar ok1 st id).starred) ↔ ¬ id ∈ st.starred) ∧
    (toggleStar true st id).stored = some (toggleStar true st id).starred ∧
    (∀ y, y ∈ (toggleStar ok2 (toggleStar ok1 st id) id).starred ↔
      y ∈ st.starred) ∧
    (toggleStar false st id).starred = (toggleStar ok1 st id).starred ∧
    (toggleStar false st id).stored = st.stored := by
  by_cases h0 : id ∈ st.starred
  · have hp : st.starred.contains id = true := (contains_iff_mem _ _).mpr h0
    have hfil : ¬ id ∈ st.starred.filter (fun x => x != id) := by
      simp [List.mem_filter]
    have hc1 : (st.starred.filter (fun x => x != id)).contains id = false :=
      (contains_false_iff_not_mem _ _).mpr hfil
    refine ⟨?_, rfl, ?_, rfl, rfl⟩
    · simp [toggleStar, hp, List.mem_filter, h0]
    · intro y
      by_cases hy : y = id
      · subst hy
        simp [toggleStar, hp, hc1, List.mem_append, List.mem_filter, h0]
      · simp [toggleStar, h0, hfil, List.mem_append, List.mem_filter, hy]
  · have hp : st.starred.contains id = false :=
      (contains_false_iff_not_mem _ _).mpr h0
    have hmem : id ∈ st.starred ++ [id] := by simp
    have hc1 : (st.starred ++ [id]).contains id = true :=
      (contains_iff_mem _ _).mpr hmem
    refine ⟨?_, rfl, ?_, rfl, rfl⟩
    · simp [toggleStar, hp, List.mem_append, h0]
    · intro y
      by_cases hy : y = id
      · subst hy
        simp [toggleStar, hp, hc1, List.mem_append, List.mem_filter, h0]
      · simp [toggleStar, h0, hmem, List.mem_append, List.mem_filter, hy]

/-- Concrete catalog item with label text `Cat` (the claim writes it as
`{id: "a", label: "Cat"}`). -/
def itemCat : RawLibItem :=
  { id := some "a".toList,
    elements := ElementsField.arr
      [some { type := "text".toList, text := some "Cat".toList }] }

/-- Concrete catalog item with label text `Dog`. -/
def itemDog : RawLibItem :=
  { id := some "b".toList,
    elements := ElementsField.arr
      [some { type := "text".toList, text := some "Dog".toList }] }

/-- Concrete malformed catalog item: a truthy non-array `elements` field. -/
def itemBadEx : RawLibItem :=
  { id := none, elements := ElementsField.bad }

/-- Concrete item whose first textual sub-element is 60 copies of `a`
followed by `zebra`, so `zebra` occurs only beyond the 60-character
truncation point. -/
def longItem : RawLibItem :=
  { id := some "L".toList,
    elements := ElementsField.arr
      [some { type := "text".toList,
              text := some (List.replicate 60 'a' ++ "zebra".toList) }] }

/-- The empty needle occurs in every haystack. -/
theorem jsIncludes_nil (hay : List Char) : jsIncludes hay [] = true := by
  cases hay <;> simp [jsIncludes, List.isPrefixOf]

/-- Lowercasing produces the empty string only from the empty string. -/
theorem jsToLower_eq_nil_iff (s : List Char) : jsToLower s = [] ↔ s = [] := by
  simp [jsToLower]

/-- Every entry of the normalized catalog has the lowercased label as its
search haystack. -/
theorem normEntries_haystack (starred : List (List Char))
    (items : List RawLibItem) :
    ∀ e ∈ normEntries starred items, e.haystack = jsToLower e.label := by
  intro e he
  simp [normEntries, List.mem_map] at he
  obtain ⟨i, it, hmem, hEq⟩ := he
  rw [← hEq]
  rfl

/-- C4 counterexample: the claim quantifies over every query string with
matching defined as plain lowercase substring containment, but the code trims
the query first; on the catalog `[{id:"a", "Cat"}]` with the query `" at "`
the code keeps the entry while the claimed view drops it. -/
theorem presentation_view_untrimmed_query_counterexample :
    normalizedLibraries (some [itemCat]) [] " at ".toList ≠
      specPresentationView (normEntries [] [itemCat]) " at ".toList := by
  decide

/-- C4 (amended): for every catalog, curation set and query string the
derived view is exactly the spec's PresentationView applied to the trimmed
query — the entries whose lowercase label contains the lowercase trimmed
query substring, starred entries first, each side in original catalog order;
in particular the two concrete examples of the claim hold. -/
theorem presentation_view_matches_spec_after_trim :
    (∀ (items : List RawLibItem) (starred : List (List Char))
      (query : List Char),
      normalizedLibraries (some items) starred query =
        specPresentationView (normEntries starred items) (jsTrim query)) ∧
    normalizedLibraries (some [itemCat, itemDog]) ["b".toList] [] =
      [{ id := "b".toList, label := "Dog".toList, haystack := "dog".toList,
         isStarred := true },
       { id := "a".toList, label := "Cat".toList, haystack := "cat".toList,
         isStarred := false }] ∧
    normalizedLibraries (some [itemCat, itemDog]) ["b".toList] "at".toList =
      [{ id := "a".toList, label := "Cat".toList, haystack := "cat".toList,
         isStarred := false }] := by
  refine ⟨?_, by decide, by decide⟩
  intro items starred query
  have hhay := normEntries_haystack starred items
  have hfilter :
      (if jsToLower (jsTrim query) = [] then normEntries starred items
       else (normEntries starred items).filter
         (fun i => jsIncludes i.haystack (jsToLower (jsTrim query)))) =
      (normEntries starred items).filter
        (fun e => jsIncludes (jsToLower e.label) (jsToLower (jsTrim query))) := by
    by_cases hq : jsToLower (jsTrim query) = []
    · rw [if_pos hq, hq]
      exact (List.filter_eq_self.mpr
        (fun e _ => jsIncludes_nil (jsToLower e.label))).symm
    · rw [if_neg hq]
      exact List.filter_congr (fun e he => by rw [hhay e he])
  simp only [normalizedLibraries, specPresentationView,
    List.partition_eq_filter_filter]
  rw [hfilter]
  simp [sortStarredFirst, Function.comp]

/-- When the spec-side scan finds a first textual non-blank sub-element, the
source's `.find` call finds the same sub-element. -/
theorem specFirstTextual_some_find (els : List (Option LibSubEl))
    (t : List Char) (h : specFirstTextual els = some t) :
    ∃ el : LibSubEl, els.find? isTextElem = some (some el) ∧
      el.text = some t ∧ t ≠ [] := by
  induction els with
  | nil => simp [specFirstTextual] at h
  | cons oel rest ih =>
    cases oel with
    | none =>
      rw [specFirstTextual] at h
      obtain ⟨el, h1, h2, h3⟩ := ih h
      exact ⟨el, by simp [List.find?_cons, isTextElem, h1], h2, h3⟩
    | some el =>
      cases hte : el.text with
      | none =>
        rw [specFirstTextual, hte] at h
        obtain ⟨el2, h1, h2, h3⟩ := ih h
        exact ⟨el2, by simp [List.find?_cons, isTextElem, hte, h1], h2, h3⟩
      | some t0 =>
        by_cases hcond : el.type = "text".toList ∧ jsTrim t0 ≠ []
        · simp only [specFirstTextual, hte] at h
          rw [if_pos hcond] at h
          have ht : t0 = t := by injection h
          subst ht
          have hne : t0 ≠ [] := by
            intro hnil
            exact hcond.2 (by rw [hnil]; rfl)
          refine ⟨el, ?_, hte, hne⟩
          have hpred : isTextElem (some el) = true := by
            simp [isTextElem, hte, hcond.1, List.isEmpty_iff, hcond.2]
          simp [List.find?_cons, hpred]
        · simp only [specFirstTextual, hte] at h
          rw [if_neg hcond] at h
          obtain ⟨el2, h1, h2, h3⟩ := ih h
          have hpred : isTextElem (some el) = false := by
            simp only [isTextElem, hte]
            rcases not_and_or.mp hcond with hty | htr
            · simp
              exact fun hx => absurd hx hty
            · have : jsTrim t0 = [] := not_not.mp htr
              simp [this]
          exact ⟨el2, by simp [List.find?_cons, hpred, h1], h2, h3⟩

/-- When the spec-side scan finds nothing, the source's `.find` call finds
nothing either. -/
theorem specFirstTextual_none_find (els : List (Option LibSubEl))
    (h : specFirstTextual els = none) : els.find? isTextElem = none := by
  induction els with
  | nil => rfl
  | cons oel rest ih =>
    cases oel with
    | none =>
      rw [specFirstTextual] at h
      simp [List.find?_cons, isTextElem, ih h]
    | some el =>
      cases hte : el.text with
      | none =>
        rw [specFirstTextual, hte] at h
        simp [List.find?_cons, isTextElem, hte, ih h]
      | some t0 =>
        by_cases hcond : el.type = "text".toList ∧ jsTrim t0 ≠ []
        · simp only [specFirstTextual, hte] at h
          rw [if_pos hcond] at h
          exact absurd h (by simp)
        · simp only [specFirstTextual, hte] at h
          rw [if_neg hcond] at h
          have hpred : isTextElem (some el) = false := by
            simp only [isTextElem, hte]
            rcases not_and_or.mp hcond with hty | htr
            · simp
              exact fun hx => absurd hx hty
            · have : jsTrim t0 = [] := not_not.mp htr
              simp [this]
          simp [List.find?_cons, hpred, ih h]

/-- C9: the derived label is the text of the first sub-element flagged as
textual with non-blank content, truncated to 60 characters; when no such
sub-element exists — the scan finds nothing, the `elements` field is falsy,
or the scan throws on a malformed (truthy non-array) field — the label is the
1-indexed positional placeholder `Item N`. -/
theorem derive_label_matches_spec (index : Nat) (item : RawLibItem) :
    (∀ els t, item.elements = ElementsField.arr els →
      specFirstTextual els = some t →
      deriveLabel index item = jsSlice 60 t) ∧
    (∀ els, item.elements = ElementsField.arr els →
      specFirstTextual els = none →
      deriveLabel index item = itemPlaceholder index) ∧
    (item.elements = ElementsField.missing →
      deriveLabel index item = itemPlaceholder index) ∧
    (item.elements = ElementsField.bad →
      deriveLabel index item = itemPlaceholder index) ∧
    itemPlaceholder index = "Item ".toList ++ (toString (index + 1)).toList := by
  refine ⟨?_, ?_, fun h => by simp [deriveLabel, h],
    fun h => by simp [deriveLabel, h], rfl⟩
  · intro els t harr hspec
    obtain ⟨el, hfind, htext, hne⟩ := specFirstTextual_some_find els t hspec
    simp [deriveLabel, harr, hfind, htext, hne]
  · intro els harr hspec
    simp [deriveLabel, harr, specFirstTextual_none_find els hspec]

/-- Witness for C9: the `Cat` item derives the label `Cat`; the malformed
item at position 1 derives the placeholder `Item 2`. -/
theorem derive_label_matches_spec_witness :
    (itemCat.elements = ElementsField.arr
      [some { type := "text".toList, text := some "Cat".toList }]) ∧
    (specFirstTextual
      [some { type := "text".toList, text := some "Cat".toList }] =
      some "Cat".toList) ∧
    deriveLabel 0 itemCat = jsSlice 60 "Cat".toList ∧
    deriveLabel 1 itemBadEx = itemPlaceholder 1 := by
  refine ⟨rfl, by decide, ?_, ?_⟩
  · exact (derive_label_matches_spec 0 itemCat).1
      [some { type := "text".toList, text := some "Cat".toList }]
      "Cat".toList rfl (by decide)
  · exact (derive_label_matches_spec 1 itemBadEx).2.2.2.1 rfl

/-- C10: the search filter matches against the derived label only, after
truncation and lowercasing — every entry kept by a non-blank query matches on
its haystack, which is the lowercased truncated label; a query occurring in
the raw text only beyond the 60-character cut does not match its entry; and
the query is trimmed first, so a whitespace-only query yields the same view
as the empty query. -/
theorem search_matches_truncated_label_only :
    (∀ (items : List RawLibItem) (starred : List (List Char))
      (q : List Char), jsTrim q = [] →
      normalizedLibraries (some items) starred q =
        normalizedLibraries (some items) starred []) ∧
    (∀ (items : List RawLibItem) (starred : List (List Char))
      (q : List Char) (e : NormEntry), jsTrim q ≠ [] →
      e ∈ normalizedLibraries (some items) starred q →
      jsIncludes e.haystack (jsToLower (jsTrim q)) = true) ∧
    deriveLabel 0 longItem = List.replicate 60 'a' ∧
    jsIncludes (jsToLower (List.replicate 60 'a' ++ "zebra".toList))
      (jsToLower "zebra".toList) = true ∧
    normalizedLibraries (some [longItem]) [] "zebra".toList = [] := by
  refine ⟨?_, ?_, by decide, by decide, by decide⟩
  · intro items starred q hq
    have h1 : jsToLower (jsTrim q) = [] := by rw [hq]; rfl
    have h2 : jsToLower (jsTrim ([] : List Char)) = [] := rfl
    simp [normalizedLibraries, h1, h2]
  · intro items starred q e hq he
    have hq2 : jsToLower (jsTrim q) ≠ [] := by
      intro hcon
      exact hq ((jsToLower_eq_nil_iff _).mp hcon)
    simp only [normalizedLibraries, if_neg hq2, sortStarredFirst,
      List.mem_append, List.mem_filter] at he
    rcases he with ⟨⟨_, hpred⟩, _⟩ | ⟨⟨_, hpred⟩, _⟩ <;> exact hpred

/-- Witness for C10: a whitespace-only query gives the same view as the empty
query, and the entry kept by the query `at` matches on its haystack. -/
theorem search_matches_truncated_label_only_witness :
    (jsTrim "   ".toList = []) ∧
    normalizedLibraries (some [itemCat]) [] "   ".toList =
      normalizedLibraries (some [itemCat]) [] [] ∧
    (jsTrim "at".toList ≠ []) ∧
    jsIncludes
      ({ id := "a".toList, label := "Cat".toList, haystack := "cat".toList,
         isStarred := false } : NormEntry).haystack
      (jsToLower (jsTrim "at".toList)) = true := by
  refine ⟨by decide, ?_, by decide, ?_⟩
  · exact search_matches_truncated_label_only.1 [itemCat] [] "   ".toList
      (by decide)
  · exact search_matches_truncated_label_only.2.1 [itemCat] [] "at".toList
      { id := "a".toList, label := "Cat".toList, haystack := "cat".toList,
        isStarred := false } (by decide) (by decide)
